import Mathlib

/-!
# Verification of the linkcurt URL-shortening backend

Shallow embedding of the core of the `periko-gan/linkcurt_backend` repository:
the short-code generator, the link allocator with its single-regeneration
collision policy, the lookup resolver, the route-protection guard, the GET
route table for links, and the visit-creation controller.  Persistent storage
is modelled as an explicit list of records; the unique index declared on
`short_link` in `LinksModel` is modelled by making the insert fail when the
code is already present.  Randomness (the candidate codes) and the external
URL validator are passed in as explicit parameters.
-/

namespace Linkcurt

/-- A row of the `links` table as declared in `LinksModel`
(fields `id_links`, `original_link`, `short_link`, `id_user`;
the registration date plays no role in the verified claims and is omitted). -/
structure LinkRecord where
  id_links : Nat
  original_link : String
  short_link : String
  id_user : Nat
  deriving DecidableEq

/-- A row of the `users` table, restricted to the fields the verified code
consults: the primary key `id_user`, the unique `email` and the `role`. -/
structure UserRec where
  id_user : Nat
  email : String
  role : String
  deriving DecidableEq

/-- The alphabet literal of `generateShortLink`
(`src/helpers/generateShortLink.js`), copied character for character. -/
def shortLinkAlphabet : String :=
  "abcdefghijklmnopqrstuvwxyzABCDEFGHIJKLMNOPQRSTUWXYZ0123456789"

/-- `generateShortLink`: builds a 4-character code whose i-th character is
`char.charAt(Math.floor(Math.random() * char.length))`.  The random draws are
modelled by the explicit index function `randIdx`, whose codomain
`Fin shortLinkAlphabet.data.length` is exactly the range of
`Math.floor(Math.random() * char.length)`. -/
def generateShortLink (randIdx : Fin 4 → Fin shortLinkAlphabet.data.length) : String :=
  String.mk ((List.finRange 4).map (fun i => shortLinkAlphabet.data.get (randIdx i)))

/-- JavaScript truthiness of an optional string field of a request body:
an absent field and the empty string are falsy (`!original_link`). -/
def strTruthy : Option String → Bool
  | none => false
  | some v => !(v == "")

/-- JavaScript truthiness of an optional numeric field of a request body:
an absent field and `0` are falsy (`!id_user`). -/
def natTruthy : Option Nat → Bool
  | none => false
  | some n => !(n == 0)

/-- The `id_user` value of a JSON request body as the allocator distinguishes
it: the key absent from the body (JavaScript `undefined`), an explicit JSON
`null`, or a number.  The distinction matters because Sequelize v6 rejects an
`undefined` WHERE parameter by throwing, while `null` becomes an `IS NULL`
condition. -/
inductive BodyId where
  | absent
  | null
  | num (n : Nat)
  deriving DecidableEq

/-- Equality test of a stored `id_user` column against the `id_user` value of
the request body, as used in the WHERE clause of the duplicate-link query.
A numeric value matches by equality; an explicit null becomes `IS NULL`,
which matches no stored row because the column is declared
`allowNull: false`.  The absent case is never consulted: Sequelize v6 throws
on an `undefined` WHERE parameter before the query is built (modelled in
`linkControllerCreate`). -/
def userMatches (stored : Nat) (queried : BodyId) : Bool :=
  match queried with
  | .num u => stored == u
  | .null => false
  | .absent => false

/-- Request body of `POST /api/v1/createLinks`: `{original_link, id_user}`,
either field possibly absent. -/
structure CreateReq where
  original_link : Option String
  id_user : BodyId
  deriving DecidableEq

/-- Outcome of the allocator: `badRequest` is an HTTP 400 with the given error
string, `created` is the HTTP 201 carrying the new row, `serverError` is the
HTTP 500 "Internal server error" produced by the catch-all handler — reached
when a query throws, i.e. when the duplicate `findOne` receives an undefined
`id_user` WHERE parameter, or when the insert violates the unique index on
`short_link`. -/
inductive CreateOutcome where
  | badRequest (error : String)
  | created (link : LinkRecord)
  | serverError
  deriving DecidableEq

/-- Instrumentation of one allocator run: how many times `generateShortLink`
was called, which codes the uniqueness checker (`findOne` on `short_link`) was
asked about, whether the duplicate-link query (`findOne` on
`original_link` and `id_user`) was issued, and the code of the attempted
insert, when one was attempted. -/
structure CreateTrace where
  genCalls : Nat
  uniqueChecks : List String
  dupCheckDone : Bool
  insertAttempted : Option String
  deriving DecidableEq

/-- `linkControllerCreate` (`linksControllerPost.js`), instrumented with a
`CreateTrace`.  Control flow in source order: URL validity test, duplicate
`(original_link, id_user)` query, `id_user === undefined || id_user === null`
test, code generation, uniqueness check of the first candidate, one
regeneration on collision with no re-check, insert.  `validURL` stands for
`validator.isURL`; `cand1` and `cand2` are the two candidate codes
`generateShortLink` may produce; `nextId` is the auto-increment key of the
inserted row.  With the `id_user` key absent from the body, the duplicate
`findOne` throws (Sequelize v6 rejects the undefined WHERE parameter before
any SQL reaches storage) and the catch-all answers 500; with an explicit null
it issues an `IS NULL` query that matches no row, after which the
null test answers "User ID is required".  The insert enforces the unique
index `idx_short_link` of `LinksModel`: it throws (whence `serverError`) when
the code is already stored.  Returns the outcome, the resulting store and the
trace. -/
def linkControllerCreate (validURL : String → Bool) (store : List LinkRecord)
    (req : CreateReq) (cand1 cand2 : String) (nextId : Nat) :
    CreateOutcome × List LinkRecord × CreateTrace :=
  if !(strTruthy req.original_link && validURL ((req.original_link.getD "").trim)) then
    (.badRequest "Invalid URL", store, ⟨0, [], false, none⟩)
  else
    let ol := req.original_link.getD ""
    match req.id_user with
    | .absent => (.serverError, store, ⟨0, [], false, none⟩)
    | .null =>
      if (store.find? (fun l => l.original_link == ol && userMatches l.id_user .null)).isSome then
        (.badRequest "Link already exists for this user", store, ⟨0, [], true, none⟩)
      else
        (.badRequest "User ID is required", store, ⟨0, [], true, none⟩)
    | .num uid =>
      if (store.find? (fun l =>
          l.original_link == ol && userMatches l.id_user (.num uid))).isSome then
        (.badRequest "Link already exists for this user", store, ⟨0, [], true, none⟩)
      else
        let firstCollides := (store.find? (fun l => l.short_link == cand1)).isSome
        let code := if firstCollides then cand2 else cand1
        let calls := if firstCollides then 2 else 1
        if store.any (fun l => l.short_link == code) then
          (.serverError, store, ⟨calls, [cand1], true, some code⟩)
        else
          let newLink : LinkRecord := ⟨nextId, ol, code, uid⟩
          (.created newLink, newLink :: store, ⟨calls, [cand1], true, some code⟩)

/-- The store mutation of `linkControllerPutID` (`linksControllerPut.js`):
`findOne` by `id_links` followed by `update({original_link})` changes the
`original_link` of the first row with the given key and nothing else. -/
def updateOriginalLink (store : List LinkRecord) (idLinks : Nat) (newUrl : String) :
    List LinkRecord :=
  match store with
  | [] => []
  | l :: rest =>
    if l.id_links == idLinks then { l with original_link := newUrl } :: rest
    else l :: updateOriginalLink rest idLinks newUrl

/-- `linkControllerPutID`, store view: the update runs only when the new URL
is truthy and passes `validator.isURL` on its trimmed form; otherwise the
request is rejected with 400 and the store is untouched. -/
def linkControllerPutID (validURL : String → Bool) (store : List LinkRecord)
    (idLinks : Nat) (newUrl : Option String) : List LinkRecord :=
  if !(strTruthy newUrl && validURL ((newUrl.getD "").trim)) then store
  else updateOriginalLink store idLinks (newUrl.getD "")

/-- The store mutation of `linkControllerDeleteID` (`linksControllerDelete.js`):
`findOne` by `id_links` followed by `destroy()` removes the first row with the
given key, when present. -/
def deleteLink (store : List LinkRecord) (idLinks : Nat) : List LinkRecord :=
  match store with
  | [] => []
  | l :: rest => if l.id_links == idLinks then rest else l :: deleteLink rest idLinks

/-- One request-level mutation of the links store: an allocation (with any
inputs and any pair of generated candidates), an `original_link` update, or a
deletion.  These are the only operations of the repository that write the
`links` table. -/
inductive Step : List LinkRecord → List LinkRecord → Prop where
  | create (validURL : String → Bool) (req : CreateReq) (cand1 cand2 : String)
      (nextId : Nat) (store : List LinkRecord) :
      Step store (linkControllerCreate validURL store req cand1 cand2 nextId).2.1
  | update (validURL : String → Bool) (idLinks : Nat) (newUrl : Option String)
      (store : List LinkRecord) :
      Step store (linkControllerPutID validURL store idLinks newUrl)
  | del (idLinks : Nat) (store : List LinkRecord) :
      Step store (deleteLink store idLinks)

/-- The stores reachable from the empty store by request-level mutations. -/
inductive Reachable : List LinkRecord → Prop where
  | nil : Reachable []
  | step {s t : List LinkRecord} : Reachable s → Step s t → Reachable t

/-- Global uniqueness of `short_link` across the store. -/
def shortUnique (store : List LinkRecord) : Prop :=
  (store.map (fun l => l.short_link)).Pairwise (fun a b => a ≠ b)

/-- The canonical https domain stripped by the lookup resolver. -/
def domainHttps : String := "https://linkcurter.com/"

/-- The canonical http domain stripped by the lookup resolver. -/
def domainHttp : String := "http://linkcurter.com/"

/-- The sanitisation step of `linksControllerOriginalLinkGet`:
`shortLink.replace(/^https?:\x2f\x2flinkcurter\.com\x2f/, '')` removes one
leading occurrence of `https://linkcurter.com/` or `http://linkcurter.com/`
and leaves every other string unchanged. -/
def stripDomain (s : String) : String :=
  if domainHttps.data.isPrefixOf s.data then String.mk (s.data.drop domainHttps.data.length)
  else if domainHttp.data.isPrefixOf s.data then String.mk (s.data.drop domainHttp.data.length)
  else s

/-- Outcome of the lookup resolver: `ok` is the HTTP 200 with the original
URL, `notFound` the HTTP 404 with its error string. -/
inductive LookupOutcome where
  | ok (original_link : String)
  | notFound (error : String)
  deriving DecidableEq

/-- `linksControllerOriginalLinkGet` (`linksControllerGet.js`): strip the
canonical domain, then `findOne` for a row whose `short_link` equals the
remaining string exactly (string equality, hence case-sensitive). -/
def linksControllerOriginalLinkGet (store : List LinkRecord) (shortLinkParam : String) :
    LookupOutcome :=
  let code := stripDomain shortLinkParam
  match store.find? (fun l => l.short_link == code) with
  | some l => .ok l.original_link
  | none => .notFound "Short link not found"

/-- The credential situation of a request as `protectRoute` distinguishes it:
no `authorization` header at all, a header whose token fails `jwt.verify`
(carrying the message of the thrown error), or a verified token embedding an
`email` claim. -/
inductive Credential where
  | absent
  | invalid (msg : String)
  | valid (email : String)
  deriving DecidableEq

/-- Outcome of the guard middleware: `proceed` means `next()` was called and
the route handler runs; `reject status error` is the response sent instead. -/
inductive GuardOutcome where
  | proceed
  | reject (status : Nat) (error : String)
  deriving DecidableEq

/-- `protectRoute` (`usersAuthorizationJWT.js`).  With a token: failed
verification is answered 401 with the error message; with a verified token the
user is loaded by the embedded email; a missing user is answered 400
"User not found"; a found user proceeds when the required role is "user" and
the user's role is "user" or "admin", or the required role is "admin" and the
user's role is "admin", and is otherwise answered 401 "Unauthorized user".
Without a token: proceed exactly when the required role is the empty string,
otherwise 401 "Unauthorized user". -/
def protectRoute (role : String) (users : List UserRec) (cred : Credential) :
    GuardOutcome :=
  match cred with
  | .absent =>
    if role = "" then .proceed else .reject 401 "Unauthorized user"
  | .invalid msg => .reject 401 msg
  | .valid email =>
    match users.find? (fun u => u.email == email) with
    | some u =>
      if role == "user" && (u.role == "user" || u.role == "admin") then .proceed
      else if role == "admin" && u.role == "admin" then .proceed
      else .reject 401 "Unauthorized user"
    | none => .reject 400 "User not found"

/-- The guard attached to a registered route: either none (the handler is
wired directly) or `protectRoute` with the given required role. -/
inductive RouteGuard where
  | noGuard
  | requires (role : String)
  deriving DecidableEq

/-- The GET route table of `linksRouteGet.js`, in registration order: each
path with the guard middleware it is registered with. -/
def linksRouteGetTable : List (String × RouteGuard) :=
  [("/api/v1/links", .requires "admin"),
   ("/api/v1/links/all", .requires "admin"),
   ("/api/v1/links/original/:shortLink", .noGuard),
   ("/api/v1/links/:id", .requires "user"),
   ("/api/v1/links/all/:id", .requires "user"),
   ("/api/v1/links/:attribute/:data", .noGuard),
   ("/api/v1/links/all/:attribute/:data", .requires "user"),
   ("/api/v1/links/date/:initialDate/:finalDate", .requires "user"),
   ("/api/v1/count/id_user/:id_user/links", .requires "user"),
   ("/api/v1/count/all/links", .requires "admin")]

/-- Whether an unauthenticated request (no `authorization` header) to the
given registered GET path reaches the route handler, i.e. whether the query of
the handler executes: with no guard it always does; with a guard it does
exactly when `protectRoute` calls `next()` on a credential-less request. -/
def unauthenticatedHandlerRuns (users : List UserRec) (path : String) : Bool :=
  match linksRouteGetTable.lookup path with
  | some .noGuard => true
  | some (.requires role) => protectRoute role users .absent == .proceed
  | none => false

/-- The octet alternation of the IPv4 regular expression of `isValidIp`
(`ipVerification.js`): `25[0-5]`, `2[0-4][0-9]`, `1[0-9]\x7b2\x7d` or
`[1-9]?[0-9]`, matched against a whole dot-free component. -/
def isOctetChars : List Char → Bool
  | [c] => c.isDigit
  | [c, d] => (decide ('1' ≤ c) && decide (c ≤ '9')) && d.isDigit
  | [c, d, e] =>
    if c = '1' then d.isDigit && e.isDigit
    else if c = '2' then
      if d = '5' then decide ('0' ≤ e) && decide (e ≤ '5')
      else (decide ('0' ≤ d) && decide (d ≤ '4')) && e.isDigit
    else false
  | _ => false

/-- Split a character list at every dot, keeping empty components, so that
the components are exactly the maximal dot-free runs of the input. -/
def splitOnDot : List Char → List (List Char)
  | [] => [[]]
  | c :: rest =>
    if c = '.' then [] :: splitOnDot rest
    else
      match splitOnDot rest with
      | [] => [[c]]
      | p :: ps => (c :: p) :: ps

/-- `isValidIp` (`ipVerification.js`): the anchored regular expression
`^(O)(\.(O))\x7b3\x7d$` with `O` the octet alternation.  Since an octet never
contains a dot, a string matches exactly when it splits on `.` into four
components each matching the octet alternation. -/
def isValidIp (s : String) : Bool :=
  match splitOnDot s.data with
  | [a, b, c, d] => isOctetChars a && isOctetChars b && isOctetChars c && isOctetChars d
  | _ => false

/-- Request body of `POST` visit creation
(`{so, web_navigator, ip, country, city, id_user, id_links}`), every field
possibly absent. -/
structure VisitReq where
  so : Option String
  web_navigator : Option String
  ip : Option String
  country : Option String
  city : Option String
  id_user : Option Nat
  id_links : Option Nat
  deriving DecidableEq

/-- A row of the `links_visited` table as the visit controller inserts it. -/
structure VisitRecord where
  so : Option String
  web_navigator : Option String
  ip : Option String
  country : Option String
  city : Option String
  id_user : Nat
  id_links : Nat
  deriving DecidableEq

/-- Outcome of the visit controller: `badRequest` is the HTTP 400 with its
error string, `created` the HTTP 201 carrying the inserted row. -/
inductive VisitOutcome where
  | badRequest (error : String)
  | created (visit : VisitRecord)
  deriving DecidableEq

/-- `linkVisitedControllerCreate` (`linkVisitedControllerPost.js`), in source
order: the `ip` field is replaced by `null` unless it passes `isValidIp`; then
`id_user` must be truthy and refer to an existing user, `id_links` must be
truthy and refer to an existing link; the row is then inserted with the
sanitised ip and the other fields as supplied. -/
def linkVisitedControllerCreate (users : List UserRec) (links : List LinkRecord)
    (req : VisitReq) : VisitOutcome :=
  let ipValidation :=
    match req.ip with
    | some s => if isValidIp s then some s else none
    | none => none
  if !(natTruthy req.id_user) then .badRequest "id_user is required"
  else
    let uid := req.id_user.getD 0
    if (users.find? (fun u => u.id_user == uid)).isNone then .badRequest "User does not exist"
    else if !(natTruthy req.id_links) then .badRequest "id_links is required"
    else
      let lid := req.id_links.getD 0
      if (links.find? (fun l => l.id_links == lid)).isNone then .badRequest "Link does not exist"
      else .created ⟨req.so, req.web_navigator, ipValidation, req.country, req.city, uid, lid⟩

/-- C2: the code generator always returns exactly 4 characters, but its
alphabet literal has 61 symbols, not 62: the uppercase letter V is missing
from it, so the character V can never occur in any generated code, contrary
to the specified alphabet `[a-zA-Z0-9]`. -/
theorem generateShortLink_missing_uppercase_V :
    shortLinkAlphabet.data.length = 61 ∧ 'V' ∉ shortLinkAlphabet.data ∧
    (∀ randIdx : Fin 4 → Fin shortLinkAlphabet.data.length,
      (generateShortLink randIdx).length = 4) ∧
    (∀ randIdx : Fin 4 → Fin shortLinkAlphabet.data.length,
      'V' ∉ (generateShortLink randIdx).data) := by
  refine ⟨by decide, by decide, fun randIdx => ?_, fun randIdx => ?_⟩
  · show ((List.finRange 4).map _).length = 4
    simp
  · intro hmem
    have hV : 'V' ∈ shortLinkAlphabet.data := by
      simp only [generateShortLink, List.mem_map] at hmem
      obtain ⟨i, _, hi⟩ := hmem
      exact hi ▸ List.get_mem shortLinkAlphabet.data (randIdx i).1 (randIdx i).2
    exact absurd hV (by decide)

/-- C4, counterexample: the route `/api/v1/links/:attribute/:data` is
registered without any guard middleware, and an unauthenticated request to it
reaches the handler, so its query executes. -/
theorem attributeDataRoute_unguarded_cex :
    linksRouteGetTable.lookup "/api/v1/links/:attribute/:data" = some RouteGuard.noGuard ∧
    unauthenticatedHandlerRuns [] "/api/v1/links/:attribute/:data" = true := by decide

/-- C4, amended: among the read routes of `linksRouteGet.js`,
`/links/:id` and `/links/date/:initialDate/:finalDate` are guarded and reject
unauthenticated requests before the handler runs, but
`/links/:attribute/:data` is registered without the Access Guard and an
unauthenticated request to it executes the query. -/
theorem linksRouteGet_auth_table (users : List UserRec) :
    linksRouteGetTable.lookup "/api/v1/links/:attribute/:data" = some RouteGuard.noGuard ∧
    unauthenticatedHandlerRuns users "/api/v1/links/:attribute/:data" = true ∧
    linksRouteGetTable.lookup "/api/v1/links/:id" = some (RouteGuard.requires "user") ∧
    unauthenticatedHandlerRuns users "/api/v1/links/:id" = false ∧
    linksRouteGetTable.lookup "/api/v1/links/date/:initialDate/:finalDate" =
      some (RouteGuard.requires "user") ∧
    unauthenticatedHandlerRuns users "/api/v1/links/date/:initialDate/:finalDate" = false :=
  ⟨by decide, rfl, by decide, rfl, by decide, rfl⟩

/-- C6, counterexample: with the `id_user` key absent from the body
(JavaScript undefined) the allocator answers 500 "Internal server error" —
the duplicate `findOne` throws on the undefined WHERE parameter — and never
the claimed ValidationError; with an explicit null `id_user` the 400
"User ID is required" answer does occur, but only after the duplicate-link
query has been issued against storage. -/
theorem missingUser_dupQuery_cex :
    (linkControllerCreate (fun _ => true) []
        ⟨some "https://example.com/page", .absent⟩ "abcd" "wxyz" 1).1 =
      .serverError ∧
    (linkControllerCreate (fun _ => true) []
        ⟨some "https://example.com/page", .absent⟩ "abcd" "wxyz" 1).1 ≠
      .badRequest "User ID is required" ∧
    (linkControllerCreate (fun _ => true) []
        ⟨some "https://example.com/page", .null⟩ "abcd" "wxyz" 1).1 =
      .badRequest "User ID is required" ∧
    (linkControllerCreate (fun _ => true) []
        ⟨some "https://example.com/page", .null⟩ "abcd" "wxyz" 1).2.2.dupCheckDone = true := by
  decide

/-- C6, amended: a valid-URL allocation request never produces the
"User ID is required" ValidationError before the duplicate-link query.
With the owning user identifier absent (undefined) the duplicate `findOne`
throws on the undefined WHERE parameter before any SQL reaches storage and
the allocator answers 500 "Internal server error"; only an explicit null
identifier yields the 400 "User ID is required", and then only after the
duplicate-link query has been issued against storage. -/
theorem linkControllerCreate_absent_vs_null_user
    (validURL : String → Bool) (store : List LinkRecord) (ol : String)
    (cand1 cand2 : String) (nextId : Nat)
    (hol : ol ≠ "") (hvalid : validURL ol.trim = true) :
    ((linkControllerCreate validURL store ⟨some ol, .absent⟩ cand1 cand2 nextId).1 =
        .serverError ∧
     (linkControllerCreate validURL store
        ⟨some ol, .absent⟩ cand1 cand2 nextId).2.2.dupCheckDone = false) ∧
    ((linkControllerCreate validURL store ⟨some ol, .null⟩ cand1 cand2 nextId).1 =
        .badRequest "User ID is required" ∧
     (linkControllerCreate validURL store
        ⟨some ol, .null⟩ cand1 cand2 nextId).2.2.dupCheckDone = true) := by
  have hbeq : (ol == "") = false := beq_eq_false_iff_ne.mpr hol
  have hfind : store.find?
      (fun l => l.original_link == ol && userMatches l.id_user .null) = none := by
    apply List.find?_eq_none.mpr
    intro l _
    simp [userMatches]
  refine ⟨⟨?_, ?_⟩, ⟨?_, ?_⟩⟩ <;>
    simp [linkControllerCreate, strTruthy, hbeq, hvalid, hfind]

/-- C6, witness of the amended theorem at a concrete store and request. -/
theorem linkControllerCreate_absent_vs_null_user_witness :
    ((linkControllerCreate (fun _ => true) [⟨1, "https://a.com", "abcd", 3⟩]
        ⟨some "https://b.com", .absent⟩ "abcd" "wxyz" 2).1 = .serverError ∧
     (linkControllerCreate (fun _ => true) [⟨1, "https://a.com", "abcd", 3⟩]
        ⟨some "https://b.com", .absent⟩ "abcd" "wxyz" 2).2.2.dupCheckDone = false) ∧
    ((linkControllerCreate (fun _ => true) [⟨1, "https://a.com", "abcd", 3⟩]
        ⟨some "https://b.com", .null⟩ "abcd" "wxyz" 2).1 =
        .badRequest "User ID is required" ∧
     (linkControllerCreate (fun _ => true) [⟨1, "https://a.com", "abcd", 3⟩]
        ⟨some "https://b.com", .null⟩ "abcd" "wxyz" 2).2.2.dupCheckDone = true) :=
  linkControllerCreate_absent_vs_null_user (fun _ => true)
    [⟨1, "https://a.com", "abcd", 3⟩] "https://b.com" "abcd" "wxyz" 2 (by decide) rfl

/-- C9, counterexample: a verified credential whose email claim matches no
user is answered with HTTP status 400 "User not found", not with status 401 as
the error taxonomy claims for authentication failures. -/
theorem protectRoute_user_not_found_cex :
    protectRoute "user" [] (.valid "ghost@example.com") = .reject 400 "User not found" ∧
    protectRoute "user" [] (.valid "ghost@example.com") ≠ .reject 401 "User not found" := by
  decide

/-- C9, amended: whenever the guard verifies a credential whose embedded email
claim refers to no stored user, it fails with "User not found", but at HTTP
status 400 rather than 401. -/
theorem protectRoute_unknown_email_400 (role : String) (users : List UserRec) (email : String)
    (h : users.find? (fun u => u.email == email) = none) :
    protectRoute role users (.valid email) = .reject 400 "User not found" := by
  simp [protectRoute, h]

/-- C9, witness of the amended theorem at a concrete user table and claim. -/
theorem protectRoute_unknown_email_400_witness :
    protectRoute "admin" [⟨1, "present@example.com", "admin"⟩] (.valid "absent@example.com") =
      .reject 400 "User not found" :=
  protectRoute_unknown_email_400 "admin" [⟨1, "present@example.com", "admin"⟩]
    "absent@example.com" (by decide)

/-- C1: when the first candidate code collides with a stored `short_link`,
the allocator generates exactly one replacement and proceeds to the insert
with it, without ever asking the uniqueness checker about the replacement:
the trace shows two generator calls, a single uniqueness query (on the first
candidate only) and an insert attempt carrying the replacement code. -/
theorem linkControllerCreate_single_regeneration
    (validURL : String → Bool) (store : List LinkRecord) (ol : String) (uid : Nat)
    (cand1 cand2 : String) (nextId : Nat)
    (hol : ol ≠ "") (hvalid : validURL ol.trim = true)
    (hnodup : store.find?
      (fun l => l.original_link == ol && userMatches l.id_user (.num uid)) = none)
    (hcollide : (store.find? (fun l => l.short_link == cand1)).isSome = true) :
    (linkControllerCreate validURL store ⟨some ol, .num uid⟩ cand1 cand2 nextId).2.2 =
      ⟨2, [cand1], true, some cand2⟩ := by
  have hbeq : (ol == "") = false := beq_eq_false_iff_ne.mpr hol
  by_cases hany : store.any (fun l => l.short_link == cand2) = true <;>
    simp [linkControllerCreate, strTruthy, hbeq, hvalid, hnodup, hcollide, hany]

/-- C1, witness: a store already holding the code "abcd", a first candidate
"abcd" and a replacement "wxyz". -/
theorem linkControllerCreate_single_regeneration_witness :
    (linkControllerCreate (fun _ => true) [⟨1, "https://a.com", "abcd", 7⟩]
        ⟨some "https://b.com", .num 5⟩ "abcd" "wxyz" 2).2.2 =
      ⟨2, ["abcd"], true, some "wxyz"⟩ :=
  linkControllerCreate_single_regeneration (fun _ => true) [⟨1, "https://a.com", "abcd", 7⟩]
    "https://b.com" 5 "abcd" "wxyz" 2 (by decide) rfl (by decide) (by decide)

/-- C5: allocating an `(original_link, id_user)` pair that a stored Link
already carries fails with "Link already exists for this user" and leaves the
store unchanged, while allocating the same `original_link` for a different
user (whose candidate code is fresh) succeeds and inserts the new Link:
duplicate prevention is scoped per owning user. -/
theorem linkControllerCreate_duplicate_scope
    (validURL : String → Bool) (store : List LinkRecord) (ol : String)
    (u1 u2 : Nat) (cand1 cand2 cand3 cand4 : String) (n1 n2 : Nat)
    (hol : ol ≠ "") (hvalid : validURL ol.trim = true)
    (_hne : u1 ≠ u2)
    (hdup : ∃ l ∈ store, l.original_link = ol ∧ l.id_user = u1)
    (hnodup : ∀ l ∈ store, ¬(l.original_link = ol ∧ l.id_user = u2))
    (hfresh : ∀ l ∈ store, l.short_link ≠ cand3) :
    (linkControllerCreate validURL store ⟨some ol, .num u1⟩ cand1 cand2 n1).1 =
      .badRequest "Link already exists for this user" ∧
    (linkControllerCreate validURL store ⟨some ol, .num u1⟩ cand1 cand2 n1).2.1 = store ∧
    (linkControllerCreate validURL store ⟨some ol, .num u2⟩ cand3 cand4 n2).1 =
      .created ⟨n2, ol, cand3, u2⟩ ∧
    (linkControllerCreate validURL store ⟨some ol, .num u2⟩ cand3 cand4 n2).2.1 =
      ⟨n2, ol, cand3, u2⟩ :: store := by
  have hbeq : (ol == "") = false := beq_eq_false_iff_ne.mpr hol
  have hfind1 : (store.find?
      (fun l => l.original_link == ol && userMatches l.id_user (.num u1))).isSome = true := by
    obtain ⟨l, hl, h1, h2⟩ := hdup
    rcases hnone : store.find?
        (fun l => l.original_link == ol && userMatches l.id_user (.num u1)) with _ | l'
    · exact absurd (List.find?_eq_none.mp hnone l hl) (by simp [userMatches, h1, h2])
    · simp [hnone]
  have hfind2 : store.find?
      (fun l => l.original_link == ol && userMatches l.id_user (.num u2)) = none := by
    apply List.find?_eq_none.mpr
    intro l hl
    simpa [userMatches] using hnodup l hl
  have hfind3 : store.find? (fun l => l.short_link == cand3) = none := by
    apply List.find?_eq_none.mpr
    intro l hl
    simpa using hfresh l hl
  have hany : store.any (fun l => l.short_link == cand3) = false := by
    apply List.any_eq_false.mpr
    intro l hl
    simpa using hfresh l hl
  refine ⟨?_, ?_, ?_, ?_⟩ <;>
    simp [linkControllerCreate, strTruthy, hbeq, hvalid, hfind1, hfind2, hfind3, hany]

/-- C5, witness: user 1 already owns the URL, user 2 does not; the repeated
allocation for user 1 conflicts and the allocation for user 2 inserts. -/
theorem linkControllerCreate_duplicate_scope_witness :
    (linkControllerCreate (fun _ => true) [⟨1, "https://x.com/p", "abcd", 1⟩]
        ⟨some "https://x.com/p", .num 1⟩ "qqqq" "rrrr" 5).1 =
      .badRequest "Link already exists for this user" ∧
    (linkControllerCreate (fun _ => true) [⟨1, "https://x.com/p", "abcd", 1⟩]
        ⟨some "https://x.com/p", .num 1⟩ "qqqq" "rrrr" 5).2.1 =
      [⟨1, "https://x.com/p", "abcd", 1⟩] ∧
    (linkControllerCreate (fun _ => true) [⟨1, "https://x.com/p", "abcd", 1⟩]
        ⟨some "https://x.com/p", .num 2⟩ "wxyz" "zzzz" 6).1 =
      .created ⟨6, "https://x.com/p", "wxyz", 2⟩ ∧
    (linkControllerCreate (fun _ => true) [⟨1, "https://x.com/p", "abcd", 1⟩]
        ⟨some "https://x.com/p", .num 2⟩ "wxyz" "zzzz" 6).2.1 =
      [⟨6, "https://x.com/p", "wxyz", 2⟩, ⟨1, "https://x.com/p", "abcd", 1⟩] :=
  linkControllerCreate_duplicate_scope (fun _ => true) [⟨1, "https://x.com/p", "abcd", 1⟩]
    "https://x.com/p" 1 2 "qqqq" "rrrr" "wxyz" "zzzz" 5 6
    (by decide) rfl (by decide) (by decide) (by decide) (by decide)

/-- C8, counterexample: with an empty required role but a valid credential of
an existing user, the guard rejects with 401 "Unauthorized user" instead of
permitting the request, so "permits exactly when requiredRole is empty" fails
on credentialed requests. -/
theorem protectRoute_empty_role_credential_cex :
    protectRoute "" [⟨1, "a@b.c", "user"⟩] (.valid "a@b.c") =
      .reject 401 "Unauthorized user" ∧
    protectRoute "" [⟨1, "a@b.c", "user"⟩] (.valid "a@b.c") ≠ .proceed := by decide

/-- C8, amended: the guard permits a request exactly when either no credential
is supplied and the required role is empty, or a verified credential resolves
to a stored user and the required role is "user" with the user's role "user"
or "admin", or the required role is "admin" with the user's role "admin".
In particular an admin passes a guard requiring "user", a plain user is
rejected by a guard requiring "admin", a credential-less request with
non-empty required role is rejected — and a credentialed request with an
empty required role is also rejected. -/
theorem protectRoute_permits_iff (role : String) (users : List UserRec) (cred : Credential) :
    protectRoute role users cred = .proceed ↔
      ((cred = .absent ∧ role = "") ∨
       (∃ email u, cred = .valid email ∧
          users.find? (fun x => x.email == email) = some u ∧
          ((role = "user" ∧ (u.role = "user" ∨ u.role = "admin")) ∨
           (role = "admin" ∧ u.role = "admin")))) := by
  cases cred with
  | absent =>
    by_cases h : role = "" <;> simp [protectRoute, h]
  | invalid msg => simp [protectRoute]
  | valid email =>
    cases hf : users.find? (fun x => x.email == email) with
    | none =>
      simp only [protectRoute, hf]
      constructor
      · intro h
        exact absurd h (by simp)
      · rintro (⟨h, -⟩ | ⟨e, u, he, hfind, -⟩)
        · exact Credential.noConfusion h
        · injection he with he
          rw [← he, hf] at hfind
          exact Option.noConfusion hfind
    | some u =>
      simp only [protectRoute, hf]
      constructor
      · intro h
        by_cases h1 : (role == "user" && (u.role == "user" || u.role == "admin")) = true
        · refine Or.inr ⟨email, u, rfl, hf, Or.inl ?_⟩
          simpa using h1
        · by_cases h2 : (role == "admin" && u.role == "admin") = true
          · refine Or.inr ⟨email, u, rfl, hf, Or.inr ?_⟩
            simpa using h2
          · rw [if_neg h1, if_neg h2] at h
            exact absurd h (by simp)
      · rintro (⟨h, -⟩ | ⟨e, u', he, hfind, hcond⟩)
        · exact Credential.noConfusion h
        · injection he with he
          rw [← he, hf] at hfind
          injection hfind with hfind
          subst hfind
          rcases hcond with ⟨hr, hu⟩ | ⟨hr, hu⟩
          · rw [if_pos (by rcases hu with hu | hu <;> simp [hr, hu])]
          · rw [if_neg (by simp [hr]), if_pos (by simp [hr, hu])]

/-- C10: a visit-creation request whose user and link references are valid but
whose ip fails IPv4 validation is still created, with the ip stored as null
and every other supplied field unchanged. -/
theorem linkVisitedControllerCreate_invalid_ip_nulled
    (users : List UserRec) (links : List LinkRecord) (req : VisitReq)
    (uid lid : Nat) (ipStr : String)
    (hu : req.id_user = some uid) (hu0 : uid ≠ 0)
    (hl : req.id_links = some lid) (hl0 : lid ≠ 0)
    (huser : (users.find? (fun u => u.id_user == uid)).isSome = true)
    (hlink : (links.find? (fun l => l.id_links == lid)).isSome = true)
    (hip : req.ip = some ipStr) (hbad : isValidIp ipStr = false) :
    linkVisitedControllerCreate users links req =
      .created ⟨req.so, req.web_navigator, none, req.country, req.city, uid, lid⟩ := by
  have h1 : (uid == 0) = false := beq_eq_false_iff_ne.mpr hu0
  have h2 : (lid == 0) = false := beq_eq_false_iff_ne.mpr hl0
  obtain ⟨u, hu'⟩ := Option.isSome_iff_exists.mp huser
  obtain ⟨l, hl'⟩ := Option.isSome_iff_exists.mp hlink
  simp [linkVisitedControllerCreate, hu, hl, hip, hbad, natTruthy, h1, h2, hu', hl']

/-- C10, witness: a malformed ip "999.0.0.1" on an otherwise valid request is
stored as null and the visit is created. -/
theorem linkVisitedControllerCreate_invalid_ip_nulled_witness :
    linkVisitedControllerCreate [⟨1, "u@x.com", "user"⟩] [⟨1, "https://a.com", "abcd", 1⟩]
      ⟨some "mac", some "firefox", some "999.0.0.1", some "ES", some "Sevilla",
        some 1, some 1⟩ =
      .created ⟨some "mac", some "firefox", none, some "ES", some "Sevilla", 1, 1⟩ :=
  linkVisitedControllerCreate_invalid_ip_nulled [⟨1, "u@x.com", "user"⟩]
    [⟨1, "https://a.com", "abcd", 1⟩]
    ⟨some "mac", some "firefox", some "999.0.0.1", some "ES", some "Sevilla", some 1, some 1⟩
    1 1 "999.0.0.1" rfl (by decide) rfl (by decide) (by decide) (by decide) rfl (by decide)

/-- Stripping the sanitiser on a string that starts with the https domain
removes exactly that domain. -/
theorem stripDomain_https_append (s : String) : stripDomain (domainHttps ++ s) = s := by
  unfold stripDomain
  rw [String.data_append]
  rw [if_pos (List.isPrefixOf_iff_prefix.mpr (List.prefix_append _ _))]
  rw [List.drop_left]

/-- The https domain is never a prefix of the http domain followed by
anything: the two differ at their fifth character. -/
theorem https_not_pre_of_http (s : String) :
    domainHttps.data.isPrefixOf (domainHttp.data ++ s.data) = false := by
  cases h : domainHttps.data.isPrefixOf (domainHttp.data ++ s.data) with
  | false => rfl
  | true =>
    exfalso
    obtain ⟨t, ht⟩ := List.isPrefixOf_iff_prefix.mp h
    have h5 : (domainHttps.data ++ t).take 5 = (domainHttp.data ++ s.data).take 5 := by rw [ht]
    rw [List.take_append_of_le_length (by decide),
      List.take_append_of_le_length (by decide)] at h5
    exact absurd h5 (by decide)

/-- Stripping the sanitiser on a string that starts with the http domain
removes exactly that domain. -/
theorem stripDomain_http_append (s : String) : stripDomain (domainHttp ++ s) = s := by
  unfold stripDomain
  rw [String.data_append]
  rw [if_neg (by rw [https_not_pre_of_http]; exact Bool.false_ne_true)]
  rw [if_pos (List.isPrefixOf_iff_prefix.mpr (List.prefix_append _ _))]
  rw [List.drop_left]

/-- The sanitiser leaves every 4-character string unchanged: both canonical
domains are longer than 4 characters, so neither is a prefix of it. -/
theorem stripDomain_of_short (s : String) (h : s.length = 4) : stripDomain s = s := by
  have hd : s.data.length = 4 := h
  have h1 : ¬domainHttps.data.isPrefixOf s.data = true := by
    intro hp
    have hle := (List.isPrefixOf_iff_prefix.mp hp).length_le
    rw [hd] at hle
    exact absurd hle (by decide)
  have h2 : ¬domainHttp.data.isPrefixOf s.data = true := by
    intro hp
    have hle := (List.isPrefixOf_iff_prefix.mp hp).length_le
    rw [hd] at hle
    exact absurd hle (by decide)
  unfold stripDomain
  rw [if_neg h1, if_neg h2]

/-- C7: for every store and every 4-character short code, the lookup resolver
gives the same answer to the bare code and to the code prefixed by the
canonical domain, in both its https and its http form: the prefix is stripped
and the rest is matched exactly against `short_link`. -/
theorem linksControllerOriginalLinkGet_domain_agnostic
    (store : List LinkRecord) (s : String) (h : s.length = 4) :
    linksControllerOriginalLinkGet store (domainHttps ++ s) =
      linksControllerOriginalLinkGet store s ∧
    linksControllerOriginalLinkGet store (domainHttp ++ s) =
      linksControllerOriginalLinkGet store s := by
  unfold linksControllerOriginalLinkGet
  rw [stripDomain_https_append, stripDomain_http_append, stripDomain_of_short s h]
  exact ⟨rfl, rfl⟩

/-- C7, witness: prefixed and bare lookups of the stored code "ABCD" agree. -/
theorem linksControllerOriginalLinkGet_domain_agnostic_witness :
    ("ABCD" : String).length = 4 ∧
    (linksControllerOriginalLinkGet [⟨1, "https://orig.com", "ABCD", 1⟩]
        (domainHttps ++ "ABCD") =
      linksControllerOriginalLinkGet [⟨1, "https://orig.com", "ABCD", 1⟩] "ABCD" ∧
     linksControllerOriginalLinkGet [⟨1, "https://orig.com", "ABCD", 1⟩]
        (domainHttp ++ "ABCD") =
      linksControllerOriginalLinkGet [⟨1, "https://orig.com", "ABCD", 1⟩] "ABCD") :=
  ⟨by decide,
   linksControllerOriginalLinkGet_domain_agnostic [⟨1, "https://orig.com", "ABCD", 1⟩]
     "ABCD" (by decide)⟩

/-- Consing a record whose code is absent from the store preserves the
uniqueness of `short_link`. -/
theorem shortUnique_cons (store : List LinkRecord) (l : LinkRecord)
    (h : shortUnique store)
    (hfresh : store.any (fun x => x.short_link == l.short_link) = false) :
    shortUnique (l :: store) := by
  unfold shortUnique at h ⊢
  rw [List.map_cons, List.pairwise_cons]
  refine ⟨?_, h⟩
  intro b hb
  obtain ⟨x, hx, rfl⟩ := List.mem_map.mp hb
  have hne := List.any_eq_false.mp hfresh x hx
  simp only [beq_iff_eq] at hne
  exact fun hEq => hne (hEq.symm)

/-- The allocator preserves the uniqueness of `short_link`: every error path
leaves the store unchanged, and the insert is guarded by the unique index. -/
theorem shortUnique_create (validURL : String → Bool) (store : List LinkRecord)
    (req : CreateReq) (cand1 cand2 : String) (nextId : Nat) (h : shortUnique store) :
    shortUnique (linkControllerCreate validURL store req cand1 cand2 nextId).2.1 := by
  simp only [linkControllerCreate]
  by_cases hurl : (!(strTruthy req.original_link &&
      validURL ((req.original_link.getD "").trim))) = true
  · rw [if_pos hurl]
    exact h
  · rw [if_neg hurl]
    cases hid : req.id_user with
    | absent => exact h
    | null =>
      by_cases hdup : (store.find? (fun l => l.original_link == (req.original_link.getD "") &&
          userMatches l.id_user .null)).isSome = true
      · rw [if_pos hdup]
        exact h
      · rw [if_neg hdup]
        exact h
    | num uid =>
      dsimp only
      by_cases hdup : (store.find? (fun l => l.original_link == (req.original_link.getD "") &&
          userMatches l.id_user (.num uid))).isSome = true
      · rw [if_pos hdup]
        exact h
      · rw [if_neg hdup]
        by_cases hany : (store.any (fun l => l.short_link ==
            (if (store.find? (fun l => l.short_link == cand1)).isSome then cand2
             else cand1))) = true
        · rw [if_pos hany]
          exact h
        · rw [if_neg hany]
          exact shortUnique_cons store _ h (Bool.eq_false_iff.mpr hany)

/-- Updating `original_link` does not touch the stored codes. -/
theorem updateOriginalLink_map_short (store : List LinkRecord) (idLinks : Nat) (u : String) :
    (updateOriginalLink store idLinks u).map (fun l => l.short_link) =
      store.map (fun l => l.short_link) := by
  induction store with
  | nil => rfl
  | cons l rest ih =>
    unfold updateOriginalLink
    split
    · simp
    · simp [ih]

/-- The update controller preserves the uniqueness of `short_link`. -/
theorem shortUnique_update (validURL : String → Bool) (store : List LinkRecord)
    (idLinks : Nat) (newUrl : Option String) (h : shortUnique store) :
    shortUnique (linkControllerPutID validURL store idLinks newUrl) := by
  unfold linkControllerPutID
  split
  · exact h
  · unfold shortUnique at h ⊢
    rw [updateOriginalLink_map_short]
    exact h

/-- Deletion yields a sublist of the store. -/
theorem deleteLink_sublist (store : List LinkRecord) (idLinks : Nat) :
    List.Sublist (deleteLink store idLinks) store := by
  induction store with
  | nil => exact List.Sublist.refl []
  | cons l rest ih =>
    unfold deleteLink
    split
    · exact List.sublist_cons_self l rest
    · exact ih.cons₂ l

/-- The delete controller preserves the uniqueness of `short_link`. -/
theorem shortUnique_delete (store : List LinkRecord) (idLinks : Nat)
    (h : shortUnique store) : shortUnique (deleteLink store idLinks) := by
  unfold shortUnique at h ⊢
  exact List.Pairwise.sublist ((deleteLink_sublist store idLinks).map _) h

/-- C3: at every store reachable from the empty store by the repository's
link mutations — allocation (under the single-regeneration collision policy,
with the unique index enforced at the insert), `original_link` update and
deletion — no two Links carry the same `short_link`. -/
theorem reachable_shortUnique {store : List LinkRecord} (h : Reachable store) :
    shortUnique store := by
  induction h with
  | nil => exact List.Pairwise.nil
  | step _ hs ih =>
    cases hs with
    | create validURL req cand1 cand2 nextId s => exact shortUnique_create _ _ _ _ _ _ ih
    | update validURL idLinks newUrl s => exact shortUnique_update _ _ _ _ ih
    | del idLinks s => exact shortUnique_delete _ _ ih

/-- C3, witness: the store reached by one successful allocation from the empty
store has pairwise distinct codes. -/
theorem reachable_shortUnique_witness :
    shortUnique ((linkControllerCreate (fun _ => true) []
        ⟨some "https://a.com", .num 1⟩ "abcd" "wxyz" 1).2.1) :=
  reachable_shortUnique (Reachable.step Reachable.nil
    (Step.create (fun _ => true) ⟨some "https://a.com", .num 1⟩ "abcd" "wxyz" 1 []))

end Linkcurt
